import Mathlib

/-!
Verification of the template validation and caching pipeline of the
`ai-feature-priortization` repository.

The development shallowly embeds the Python sources
`src/jira_feature_validator.py` and `src/rox_csv_generator.py`:

* strings are `List Char` (texts in this repository are ASCII, and all
  string primitives — `strip`, `lower`, substring, splitting — are modelled
  on their exact Python behaviour for that range);
* the two regex-based section extractors are modelled operationally with
  the backtracking order of CPython's `re` module for the exact patterns
  appearing in the sources (literal case-insensitive header, greedy `\s*`,
  lazy group, lookahead alternation);
* `round(x, n)` is modelled as round-half-to-even on rationals; every
  value actually rounded in the sources is exactly representable, so the
  rational model agrees with the floats the Python code computes;
* the external HTTP scoring call is modelled by its observable outcome
  (an exception, or a status code plus response body).
-/

namespace FeatureValidation

/-- Convert a Lean string literal to the character-list representation used
throughout this development. -/
def chars (s : String) : List Char := s.data

/-- Python `str.isspace` relevant set, restricted to ASCII: the characters
matched by the whitespace handling of `str.strip()` and of regex `\s`. -/
def pyIsSpace (c : Char) : Bool :=
  c = ' ' || c = '\t' || c = '\n' || c = '\r' || c = '\x0b' || c = '\x0c'

/-- ASCII lower-casing of a single character, the behaviour of Python
`str.lower()` on ASCII input. -/
def asciiLower (c : Char) : Char :=
  if 'A' ≤ c ∧ c ≤ 'Z' then Char.ofNat (c.toNat + 32) else c

/-- ASCII letter test: what the character class `[A-Z]` matches under
`re.IGNORECASE` on ASCII input. -/
def isAsciiLetter (c : Char) : Bool :=
  ('A' ≤ c && c ≤ 'Z') || ('a' ≤ c && c ≤ 'z')

/-- Python `str.strip()`: drop leading and trailing whitespace. -/
def pyStrip (s : List Char) : List Char :=
  ((s.dropWhile pyIsSpace).reverse.dropWhile pyIsSpace).reverse

/-- Python `str.lower()` on ASCII input. -/
def lowerChars (s : List Char) : List Char := s.map asciiLower

/-- `startsWithChars pat s`: `pat` is a prefix of `s` (exact characters). -/
def startsWithChars : List Char → List Char → Bool
  | [], _ => true
  | _ :: _, [] => false
  | p :: ps, c :: cs => p = c && startsWithChars ps cs

/-- Python `pat in s` substring containment. -/
def containsSub (pat : List Char) : List Char → Bool
  | [] => pat.isEmpty
  | c :: t => startsWithChars pat (c :: t) || containsSub pat t

/-! ## Section validators

`JiraFeatureValidator.validate_section` (src/jira_feature_validator.py,
lines 185–213) and `TemplateSection.is_valid` (src/rox_csv_generator.py,
lines 32–52). Only the boolean verdict is modelled; the accompanying
message string carries no further information. -/

/-- The literal placeholder list of line 203 of
src/jira_feature_validator.py (note the mixed case of the second and third
entries, exactly as in the source). -/
def jiraGlobalPlaceholders : List (List Char) :=
  [chars "<your text here>",
   chars "<enter general Feature acceptance here>",
   chars "<enter success criteria and/or KPIs here>"]

/-- `JiraFeatureValidator.validate_section`: the `is_valid` component of
the returned pair.  `required` and `placeholder` are the fields of the
`TemplateSection` dataclass of that file. -/
def validate_section (required : Bool) (placeholder : List Char)
    (content : List Char) : Bool :=
  if content.isEmpty then !required
  else if pyStrip content = placeholder
      || jiraGlobalPlaceholders.contains (pyStrip content) then !required
  else if (pyStrip content).length < 10 then false
  else true

/-- The placeholder list local to `TemplateSection.is_valid`
(src/rox_csv_generator.py, lines 39–46), all lower case. -/
def roxPlaceholders : List (List Char) :=
  [chars "<your text here>",
   chars "<enter general feature acceptance here>",
   chars "<enter success criteria and/or kpis here>",
   chars "your text here",
   chars "enter general feature acceptance here",
   chars "enter success criteria and/or kpis here"]

/-- `TemplateSection.is_valid` of src/rox_csv_generator.py: optional
sections are unconditionally valid; otherwise the stripped, lower-cased
content must be non-empty, contain no placeholder as a substring, and be
strictly longer than 10 characters. -/
def rox_is_valid (required : Bool) (content : List Char) : Bool :=
  if !required then true
  else
    let cleaned := lowerChars (pyStrip content)
    if cleaned.isEmpty || roxPlaceholders.any (fun p => containsSub p cleaned)
    then false
    else decide (10 < cleaned.length)

/-! ## Section extractors

`JiraFeatureValidator.extract_template_sections` (lines 157–183) runs
`re.search` with `re.DOTALL | re.IGNORECASE` for the pattern

    {escaped header}\s*(.*?)(?=\n\n[A-Z][^:]*:|$)

`ROXFeatureReporter.parse_template_sections` (lines 192–212) uses the same
shape with a different lookahead,

    {header}\s*(.*?)(?=\n\n(?:[A-Z][^:]*:|$))

and, for the two optional sections, a lazy gap before the colon
(`Use Cases.*?:` and `Out of Scope.*?:`).  The model below reproduces the
backtracking of CPython's `re`: leftmost start position first; at a
position, the greedy `\s*` prefers the longest whitespace run, the lazy
group the shortest body; `$` (no `re.MULTILINE`) matches at the end of the
text or just before a final newline. -/

/-- Lookahead `[A-Z][^:]*:` applied at a suffix: a letter (case-insensitive
because the whole pattern carries `re.IGNORECASE`) followed by a colon
anywhere later (the greedy `[^:]*` stops at the first colon). -/
def laHdrPart : List Char → Bool
  | c :: w => isAsciiLetter c && w.any (fun d => d = ':')
  | [] => false

/-- `$` without `re.MULTILINE`: end of text, or just before a final
newline. -/
def laEndStr : List Char → Bool
  | [] => true
  | ['\n'] => true
  | _ => false

/-- The jira-side lookahead `(?=\n\n[A-Z][^:]*:|$)`. -/
def laJira (u : List Char) : Bool :=
  (match u with
   | '\n' :: '\n' :: v => laHdrPart v
   | _ => false)
  || laEndStr u

/-- The rox-side lookahead `(?=\n\n(?:[A-Z][^:]*:|$))`: the blank line is
mandatory. -/
def laRox : List Char → Bool
  | '\n' :: '\n' :: v => laHdrPart v || laEndStr v
  | _ => false

/-- `dropAfterCI pat s`: when `pat` is a case-insensitive (ASCII) prefix of
`s`, the remaining suffix of `s`. -/
def dropAfterCI : List Char → List Char → Option (List Char)
  | [], s => some s
  | _ :: _, [] => none
  | p :: ps, c :: cs =>
      if asciiLower p = asciiLower c then dropAfterCI ps cs else none

/-- Length of the leading whitespace run, the text the greedy `\s*` first
consumes. -/
def wsLen : List Char → Nat
  | [] => 0
  | c :: t => if pyIsSpace c then wsLen t + 1 else 0

/-- The lazy group `(.*?)` before a lookahead `la`: the shortest prefix of
`t` whose following suffix satisfies `la`. -/
def scanK (la : List Char → Bool) : List Char → Option (List Char)
  | [] => if la [] then some [] else none
  | c :: t =>
      if la (c :: t) then some []
      else (scanK la t).map (fun g => c :: g)

/-- Backtracking of the greedy `\s*` in `\s*(.*?)(?=la)` applied to the
text after the header: try the whitespace-run length `s` first and shrink
it on failure.  Returns the text captured by the group. -/
def tryS (la : List Char → Bool) (rest : List Char) : Nat → Option (List Char)
  | 0 => scanK la rest
  | s + 1 =>
      match scanK la (rest.drop (s + 1)) with
      | some g => some g
      | none => tryS la rest s

/-- Match `\s*(.*?)(?=la)` at the start of `rest` (the text just after a
header occurrence). -/
def matchAfterHeader (la : List Char → Bool) (rest : List Char) :
    Option (List Char) :=
  tryS la rest (wsLen rest)

/-- `re.search` for `{header}\s*(.*?)(?=la)`: try every start position
from the left; at a position where the literal header matches
case-insensitively, run the tail and on failure move one position right.
Returns the text captured by the group, or `none` when the whole pattern
never matches. -/
def searchSec (la : List Char → Bool) (hdr : List Char) :
    List Char → Option (List Char)
  | [] => none
  | c :: t =>
      match dropAfterCI hdr (c :: t) with
      | some rest =>
          match matchAfterHeader la rest with
          | some g => some g
          | none => searchSec la hdr t
      | none => searchSec la hdr t

/-- The lazy `.*?:` of the rox patterns `Use Cases.*?:` and
`Out of Scope.*?:`: try each colon from the left, running the tail after
it, and fall through to later colons on failure. -/
def tryColonGaps (la : List Char → Bool) : List Char → Option (List Char)
  | [] => none
  | c :: t =>
      if c = ':' then
        match matchAfterHeader la t with
        | some g => some g
        | none => tryColonGaps la t
      else tryColonGaps la t

/-- `re.search` for `{header}.*?:\s*(.*?)(?=la)`. -/
def searchLazy (la : List Char → Bool) (hdr : List Char) :
    List Char → Option (List Char)
  | [] => none
  | c :: t =>
      match dropAfterCI hdr (c :: t) with
      | some rest =>
          match tryColonGaps la rest with
          | some g => some g
          | none => searchLazy la hdr t
      | none => searchLazy la hdr t

/-! ## Template models and validation pipelines -/

/-- The `TemplateSection` dataclass of src/jira_feature_validator.py:
name, literal header, required flag and per-section placeholder. -/
structure JiraTemplateSection where
  name : List Char
  header : List Char
  required : Bool
  placeholder : List Char
deriving DecidableEq

/-- `JiraFeatureValidator.TEMPLATE_SECTIONS` (lines 33–40). -/
def jiraTemplateSections : List JiraTemplateSection :=
  [⟨chars "goal_summary", chars "Goal Summary:", true, chars "<your text here>"⟩,
   ⟨chars "goals_outcomes", chars "Goals and expected user outcomes:", true,
    chars "<your text here>"⟩,
   ⟨chars "acceptance_criteria", chars "Acceptance Criteria:", true,
    chars "<enter general Feature acceptance here>"⟩,
   ⟨chars "success_criteria", chars "Success Criteria or KPIs measured:", true,
    chars "<enter success criteria and/or KPIs here>"⟩,
   ⟨chars "use_cases", chars "Use Cases (Optional):", false,
    chars "<your text here>"⟩,
   ⟨chars "out_of_scope", chars "Out of Scope (Optional):", false,
    chars "<your text here>"⟩]

/-- Content of one section per `extract_template_sections`: the stripped
captured group, or the empty string when the pattern does not match (for
an empty description the function returns `{}` and the caller's
`sections.get(name, '')` yields the same empty string). -/
def jiraExtractContent (desc : List Char) (sec : JiraTemplateSection) :
    List Char :=
  match searchSec laJira sec.header desc with
  | some g => pyStrip g
  | none => []

/-- Validity verdict of one section in the jira pipeline
(`validate_feature`, lines 215–262). -/
def jiraSectionValid (desc : List Char) (sec : JiraTemplateSection) : Bool :=
  validate_section sec.required sec.placeholder (jiraExtractContent desc sec)

/-- `required_missing` of `validate_feature`: required sections whose
verdict is invalid. -/
def jiraRequiredMissingCount (desc : List Char) : Nat :=
  (jiraTemplateSections.filter
    (fun s => s.required && !jiraSectionValid desc s)).length

/-- `optional_missing` of `validate_feature`. -/
def jiraOptionalMissingCount (desc : List Char) : Nat :=
  (jiraTemplateSections.filter
    (fun s => !s.required && !jiraSectionValid desc s)).length

/-- `overall_valid` of `validate_feature`: no required section missing. -/
def jiraOverallValid (desc : List Char) : Bool :=
  jiraRequiredMissingCount desc == 0

/-- One entry of `section_patterns` in `parse_template_sections`
(src/rox_csv_generator.py, lines 198–205): section name, required flag,
literal part of the header, and whether the pattern carries the lazy
`.*?:` gap (`Use Cases.*?:` / `Out of Scope.*?:`). -/
structure RoxSectionSpec where
  name : List Char
  required : Bool
  hdrLit : List Char
  lazyColon : Bool
deriving DecidableEq

/-- The four required entries of `section_patterns`. -/
def roxRequiredSections : List RoxSectionSpec :=
  [⟨chars "Goal Summary", true, chars "Goal Summary:", false⟩,
   ⟨chars "Goals and expected user outcomes", true,
    chars "Goals and expected user outcomes:", false⟩,
   ⟨chars "Acceptance Criteria", true, chars "Acceptance Criteria:", false⟩,
   ⟨chars "Success Criteria or KPIs measured", true,
    chars "Success Criteria or KPIs measured:", false⟩]

/-- The two optional entries of `section_patterns`. -/
def roxOptionalSections : List RoxSectionSpec :=
  [⟨chars "Use Cases", false, chars "Use Cases", true⟩,
   ⟨chars "Out of Scope", false, chars "Out of Scope", true⟩]

/-- Content of one section per `parse_template_sections`: stripped group
of the matching pattern, empty when the search fails (and for an empty
description, where the function returns `{}` and
`validate_feature_template` substitutes a `TemplateSection` with empty
content). -/
def roxSectionContent (desc : List Char) (spec : RoxSectionSpec) :
    List Char :=
  match (if spec.lazyColon then searchLazy laRox spec.hdrLit desc
         else searchSec laRox spec.hdrLit desc) with
  | some g => pyStrip g
  | none => []

/-- Validity verdict of one section in
`ROXFeatureReporter.validate_feature_template` (lines 214–270). -/
def roxSectionValid (desc : List Char) (spec : RoxSectionSpec) : Bool :=
  rox_is_valid spec.required (roxSectionContent desc spec)

/-- The `present` entry of a section result in
`validate_feature_template`: `section_name in sections`, which holds for
every section name exactly when `parse_template_sections` received a
non-empty description. -/
def roxPresent (desc : List Char) : Bool := !desc.isEmpty

/-- `required_sections_valid` of `validate_feature_template`. -/
def roxRequiredValidCount (desc : List Char) : Nat :=
  (roxRequiredSections.filter (fun s => roxSectionValid desc s)).length

/-- Number of entries of the `missing_required` list of
`validate_feature_template`. -/
def roxMissingRequiredCount (desc : List Char) : Nat :=
  (roxRequiredSections.filter (fun s => !roxSectionValid desc s)).length

/-- `optional_sections_valid` of `validate_feature_template`. -/
def roxOptionalValidCount (desc : List Char) : Nat :=
  (roxOptionalSections.filter (fun s => roxSectionValid desc s)).length

/-! ## Rounding

Python `round` uses round-half-to-even.  Every value rounded by the
sources is exactly representable as a binary float, so modelling the float
arithmetic by rational arithmetic is exact. -/

/-- Python `round(x)`: round-half-to-even to an integer. -/
def pyRoundHalfEven (x : ℚ) : ℤ :=
  let f := Int.floor x
  if x - f < 1/2 then f
  else if 1/2 < x - f then f + 1
  else if f % 2 = 0 then f else f + 1

/-- Python `round(x, 1)`: round-half-to-even to one decimal digit. -/
def pyRound1 (x : ℚ) : ℚ := (pyRoundHalfEven (10 * x) : ℚ) / 10

/-- The template-score formula of `validate_feature_template`
(lines 261–268): required sections weigh 8 points, optional sections 2,
each scaled by the fraction valid, rounded to one decimal. -/
def template_score (requiredValid optionalValid : Nat) : ℚ :=
  pyRound1 ((requiredValid : ℚ) / 4 * 8 + (optionalValid : ℚ) / 2 * 2)

/-- `template_score` entry of the result of `validate_feature_template`. -/
def roxTemplateScore (desc : List Char) : ℚ :=
  template_score (roxRequiredValidCount desc) (roxOptionalValidCount desc)

/-! ## Compliance scorer

`ROXFeatureReporter.calculate_compliance_score` (lines 370–412).  The
`genai_result` argument is a dataclass instance and hence always truthy,
so the LLM term is unconditional. -/

/-- `GenAIValidationResult` dataclass: the five quality sub-scores. -/
structure GenAIValidationResult where
  engineering_score : ℤ
  clarity_score : ℤ
  completeness_score : ℤ
  implementability_score : ℤ
  overall_score : ℤ
deriving DecidableEq

/-- Python `int(b)` on a boolean, as a rational. -/
def b2q (b : Bool) : ℚ := if b then 1 else 0

/-- Mean of the five sub-scores, `avg_llm_score` in the source. -/
def avgLlmScore (g : GenAIValidationResult) : ℚ :=
  ((g.engineering_score + g.clarity_score + g.completeness_score
    + g.implementability_score + g.overall_score : ℤ) : ℚ) / 5

/-- `calculate_compliance_score`: weighted sum of template ratio (4
points), assignment ratio (2 points), rescaled LLM mean (3 points) and
label compliance (1 point), rounded and clamped to `[1, 10]`. -/
def calculate_compliance_score (templateScore : ℚ)
    (pm_assigned assignee_assigned : Bool) (g : GenAIValidationResult)
    (has_410_label : Bool) : ℤ :=
  let template_ratio := templateScore / 10
  let assignment_ratio := (b2q pm_assigned + b2q assignee_assigned) / 2
  let llm_ratio := (avgLlmScore g - 1) / 4
  let score := template_ratio * 4 + assignment_ratio * 2 + llm_ratio * 3
    + b2q has_410_label * 1
  max 1 (min 10 (pyRoundHalfEven score))

/-- Modelled from the spec's words (§3 **ComplianceScore**), for the
refinement comparison of claim C7: template completeness at 40% weight,
the two assignment fields at 20% split evenly, the mean quality sub-score
rescaled from `[1,5]` to `[0,1]` at 30%, the label signal at 10%, the
percentage sum scaled to the 10-point range, rounded to nearest and
clamped to `[1,10]`. -/
def specComplianceScore (templateScore : ℚ)
    (pm_assigned assignee_assigned : Bool) (g : GenAIValidationResult)
    (has_410_label : Bool) : ℤ :=
  let completeness := templateScore / 10
  let assignFraction := (b2q pm_assigned + b2q assignee_assigned) / 2
  let rescaledQuality := (avgLlmScore g - 1) / 4
  let weighted := (4/10 * completeness + 2/10 * assignFraction
    + 3/10 * rescaledQuality + 1/10 * b2q has_410_label) * 10
  max 1 (min 10 (pyRoundHalfEven weighted))

/-! ## External scoring call

`ROXFeatureReporter.validate_with_genai` (lines 555–646), modelled over
the observable outcome of the single `requests.post` call: an exception
(network error or timeout), or a status code with a response body. -/

/-- Outcome of the Ollama HTTP call. -/
inductive OllamaOutcome where
  | err : OllamaOutcome
  | ok : Nat → List Char → OllamaOutcome
deriving DecidableEq

/-- Python `int()` digit-run parsing after the sign: digits with single
interior underscores (`int('1_0') = 10`). -/
def digitsLoop (acc : Nat) : List Char → Option Nat
  | [] => some acc
  | '_' :: d :: t =>
      if d.isDigit then digitsLoop (acc * 10 + (d.toNat - 48)) t else none
  | ['_'] => none
  | d :: t =>
      if d.isDigit then digitsLoop (acc * 10 + (d.toNat - 48)) t else none

/-- Python `int()` on an unsigned digit string. -/
def parseDigits : List Char → Option Nat
  | [] => none
  | d :: t => if d.isDigit then digitsLoop (d.toNat - 48) t else none

/-- Python `int(s)`: strip whitespace, optional sign, digit run; `none`
models `ValueError`. -/
def pyParseInt (s : List Char) : Option ℤ :=
  match pyStrip s with
  | '+' :: r => (parseDigits r).map (fun n => (n : ℤ))
  | '-' :: r => (parseDigits r).map (fun n => -(n : ℤ))
  | r => (parseDigits r).map (fun n => (n : ℤ))

/-- Python `s.split(',')`. -/
def splitOnComma : List Char → List (List Char)
  | [] => [[]]
  | c :: t =>
      if c = ',' then [] :: splitOnComma t
      else
        match splitOnComma t with
        | h :: r => (c :: h) :: r
        | [] => [[c]]

/-- `max(1, min(5, n))`, the per-sub-score clamp of lines 613–617. -/
def clamp15 (n : ℤ) : ℤ := max 1 (min 5 n)

/-- Parsing of the Ollama response body (lines 606–618): strip the body,
split on commas, parse every piece as an integer (any failure is a
`ValueError` for the whole list), require at least five scores, clamp each
of the first five to `[1, 5]`. -/
def parseScores (respText : List Char) : Option GenAIValidationResult :=
  match (splitOnComma (pyStrip respText)).mapM pyParseInt with
  | none => none
  | some l =>
      match l with
      | a :: b :: c :: d :: e :: _ =>
          some ⟨clamp15 a, clamp15 b, clamp15 c, clamp15 d, clamp15 e⟩
      | _ => none

/-- The neutral default of lines 636–642: all five sub-scores 3. -/
def neutralResult : GenAIValidationResult := ⟨3, 3, 3, 3, 3⟩

/-- `validate_with_genai` after the cache lookup: first component is the
returned result, second records whether `_save_cached_result` was called
(storing the result under the feature's fingerprint). -/
def validate_with_genai (cached : Option GenAIValidationResult)
    (o : OllamaOutcome) : GenAIValidationResult × Bool :=
  match cached with
  | some r => (r, false)
  | none =>
      match o with
      | .err => (neutralResult, true)
      | .ok status text =>
          if status = 200 then
            match parseScores text with
            | some r => (r, true)
            | none => (neutralResult, true)
          else (neutralResult, true)

/-- The failure modes claim C8 enumerates: exception (network error or
timeout), non-success status, or a body that does not parse as at least
five comma-separated integers. -/
def ollamaFailed (o : OllamaOutcome) : Prop :=
  o = .err ∨ ∃ s t, o = .ok s t ∧ (s ≠ 200 ∨ parseScores t = none)

/-! ## Cache fingerprint

`ROXFeatureReporter._get_feature_hash` (lines 448–461) builds
`json.dumps(content_data, sort_keys=True)` over the dict
`{'key', 'summary', 'description', 'updated', 'model'}` and hashes it with
SHA-256.  The model below reproduces the canonical serialization exactly
(sorted keys — description, key, model, summary, updated — default
separators, `ensure_ascii` escaping).  SHA-256 itself is a fixed function
of this string, so two fingerprints are equal whenever the serializations
are; inequality of fingerprints for distinct serializations is the
collision-resistance assumption the spec itself makes, and the claims are
settled at the level of the hash input. -/

/-- A record as consumed by `_get_feature_hash`: the four fields entering
the hash, plus a stand-in for all the metadata that does not
(status, labels, rank, assignee, …). -/
structure JiraRecord where
  key : List Char
  summary : List Char
  description : List Char
  updated : List Char
  otherFields : List Char

/-- Lower-case hex digit, as produced by Python's `json` encoder. -/
def hexDigitChar (n : Nat) : Char :=
  if n < 10 then Char.ofNat (48 + n) else Char.ofNat (87 + n)

/-- Four-digit hex rendering used by `\uXXXX` escapes. -/
def toHex4 (n : Nat) : List Char :=
  [hexDigitChar (n / 4096 % 16), hexDigitChar (n / 256 % 16),
   hexDigitChar (n / 16 % 16), hexDigitChar (n % 16)]

/-- Value of a lower-case hex digit. -/
def hexVal (c : Char) : Nat :=
  if c.toNat ≤ 57 then c.toNat - 48 else c.toNat - 87

/-- `json.dumps` escaping of one character with `ensure_ascii=True`:
the named escapes, printable ASCII verbatim, `\uXXXX` otherwise, with a
surrogate pair beyond the basic multilingual plane. -/
def escChar (c : Char) : List Char :=
  if c = '"' then ['\\', '"']
  else if c = '\\' then ['\\', '\\']
  else if c = '\n' then ['\\', 'n']
  else if c = '\t' then ['\\', 't']
  else if c = '\r' then ['\\', 'r']
  else if c = '\x08' then ['\\', 'b']
  else if c = '\x0c' then ['\\', 'f']
  else if 0x20 ≤ c.toNat ∧ c.toNat ≤ 0x7e then [c]
  else if c.toNat < 0x10000 then '\\' :: 'u' :: toHex4 c.toNat
  else ('\\' :: 'u' :: toHex4 (0xd800 + (c.toNat - 0x10000) / 0x400))
    ++ ('\\' :: 'u' :: toHex4 (0xdc00 + (c.toNat - 0x10000) % 0x400))

/-- `json.dumps` escaping of a string body. -/
def escStr (s : List Char) : List Char := s.flatMap escChar

/-- The SHA-256 input of `_get_feature_hash`:
`json.dumps({'key': …, 'summary': …, 'description': …, 'updated': …,
'model': …}, sort_keys=True)`, keys in sorted order with the default
`", "` and `": "` separators.  Written with each escaped field followed by
its closing quote and the next literal piece. -/
def featureHashInput (r : JiraRecord) (model : List Char) : List Char :=
  chars "\x7b\"description\": \"" ++ (escStr r.description ++ '"' ::
    (chars ", \"key\": \"" ++ (escStr r.key ++ '"' ::
      (chars ", \"model\": \"" ++ (escStr model ++ '"' ::
        (chars ", \"summary\": \"" ++ (escStr r.summary ++ '"' ::
          (chars ", \"updated\": \"" ++ (escStr r.updated ++ '"' ::
            chars "\x7d")))))))))

/-- Drop an expected literal prefix. -/
def dropLit : List Char → List Char → Option (List Char)
  | [], w => some w
  | _ :: _, [] => none
  | c :: l, d :: w => if c = d then dropLit l w else none

/-- Prepend a decoded character to the pending field of a parser state. -/
def mapConsFst (c : Char) :
    Option (List Char × List Char) → Option (List Char × List Char)
  | some (s, t) => some (c :: s, t)
  | none => none

/-- Decoder (with fuel, for structural recursion) for one JSON string
body up to its closing quote: the left inverse of `escStr` used to prove
the serialization injective. -/
def unescFieldF : Nat → List Char → Option (List Char × List Char)
  | 0, _ => none
  | _ + 1, [] => none
  | f + 1, c :: r =>
    if c = '"' then some ([], r)
    else if c = '\\' then
      match r with
      | [] => none
      | e :: r2 =>
        if e = '"' then mapConsFst '"' (unescFieldF f r2)
        else if e = '\\' then mapConsFst '\\' (unescFieldF f r2)
        else if e = 'n' then mapConsFst '\n' (unescFieldF f r2)
        else if e = 't' then mapConsFst '\t' (unescFieldF f r2)
        else if e = 'r' then mapConsFst '\r' (unescFieldF f r2)
        else if e = 'b' then mapConsFst '\x08' (unescFieldF f r2)
        else if e = 'f' then mapConsFst '\x0c' (unescFieldF f r2)
        else if e = 'u' then
          match r2 with
          | a :: b :: c2 :: d :: r3 =>
            if hexVal a * 4096 + hexVal b * 256 + hexVal c2 * 16 + hexVal d
                < 0xd800
              ∨ 0xdc00 ≤ hexVal a * 4096 + hexVal b * 256 + hexVal c2 * 16
                + hexVal d then
              mapConsFst (Char.ofNat (hexVal a * 4096 + hexVal b * 256
                + hexVal c2 * 16 + hexVal d)) (unescFieldF f r3)
            else
              match r3 with
              | '\\' :: 'u' :: a2 :: b2 :: c3 :: d2 :: r4 =>
                mapConsFst (Char.ofNat (0x10000
                  + (hexVal a * 4096 + hexVal b * 256 + hexVal c2 * 16
                    + hexVal d - 0xd800) * 0x400
                  + (hexVal a2 * 4096 + hexVal b2 * 256 + hexVal c3 * 16
                    + hexVal d2 - 0xdc00))) (unescFieldF f r4)
              | _ => none
          | _ => none
        else none
    else mapConsFst c (unescFieldF f r)

/-- Decoder for one JSON string body, fuel instantiated to the input
length (one unit of fuel decodes at least one character). -/
def unescField (w : List Char) : Option (List Char × List Char) :=
  unescFieldF w.length w

/-- Parser recovering the five fields from a serialized hash input. -/
def parseHashInput (w : List Char) :
    Option (List Char × List Char × List Char × List Char × List Char) := do
  let w ← dropLit (chars "\x7b\"description\": \"") w
  let (d, w) ← unescField w
  let w ← dropLit (chars ", \"key\": \"") w
  let (k, w) ← unescField w
  let w ← dropLit (chars ", \"model\": \"") w
  let (m, w) ← unescField w
  let w ← dropLit (chars ", \"summary\": \"") w
  let (s, w) ← unescField w
  let w ← dropLit (chars ", \"updated\": \"") w
  let (u, w) ← unescField w
  let _ ← dropLit (chars "\x7d") w
  pure (d, k, m, s, u)

/-! ## Helper lemmas -/

theorem hexVal_hexDigitChar : ∀ x : Nat, x < 16 → hexVal (hexDigitChar x) = x := by
  decide

theorem recompose4 (n : Nat) (h : n < 65536) :
    hexVal (hexDigitChar (n / 4096 % 16)) * 4096
      + hexVal (hexDigitChar (n / 256 % 16)) * 256
      + hexVal (hexDigitChar (n / 16 % 16)) * 16
      + hexVal (hexDigitChar (n % 16)) = n := by
  rw [hexVal_hexDigitChar _ (Nat.mod_lt _ (by norm_num)),
      hexVal_hexDigitChar _ (Nat.mod_lt _ (by norm_num)),
      hexVal_hexDigitChar _ (Nat.mod_lt _ (by norm_num)),
      hexVal_hexDigitChar _ (Nat.mod_lt _ (by norm_num))]
  omega

theorem charValid (c : Char) :
    c.toNat < 0xd800 ∨ (0xdfff < c.toNat ∧ c.toNat < 0x110000) := by
  have h := c.valid
  unfold UInt32.isValidChar Nat.isValidChar at h
  exact h

theorem unescFieldF_escChar (f : Nat) (c : Char) (w : List Char) :
    unescFieldF (f + 1) (escChar c ++ w) = mapConsFst c (unescFieldF f w) := by
  by_cases h1 : c = '"'
  · subst h1; rfl
  by_cases h2 : c = '\\'
  · subst h2; rfl
  by_cases h3 : c = '\n'
  · subst h3; rfl
  by_cases h4 : c = '\t'
  · subst h4; rfl
  by_cases h5 : c = '\r'
  · subst h5; rfl
  by_cases h6 : c = '\x08'
  · subst h6; rfl
  by_cases h7 : c = '\x0c'
  · subst h7; rfl
  by_cases h8 : 0x20 ≤ c.toNat ∧ c.toNat ≤ 0x7e
  · have he : escChar c = [c] := by
      simp [escChar, h1, h2, h3, h4, h5, h6, h7, h8]
    rw [he]
    simp only [List.cons_append, List.nil_append, unescFieldF]
    rw [if_neg h1, if_neg h2]
    rfl
  by_cases h9 : c.toNat < 0x10000
  · have he : escChar c = '\\' :: 'u' :: toHex4 c.toNat := by
      simp [escChar, h1, h2, h3, h4, h5, h6, h7, h8, h9]
    rw [he]
    have hs : hexVal (hexDigitChar (c.toNat / 4096 % 16)) * 4096
        + hexVal (hexDigitChar (c.toNat / 256 % 16)) * 256
        + hexVal (hexDigitChar (c.toNat / 16 % 16)) * 16
        + hexVal (hexDigitChar (c.toNat % 16)) = c.toNat := recompose4 _ h9
    have hcond : c.toNat < 0xd800 ∨ 0xdc00 ≤ c.toNat := by
      rcases charValid c with h | h
      · exact Or.inl h
      · exact Or.inr (by omega)
    simp only [toHex4, List.append_eq, List.cons_append, List.nil_append,
      unescFieldF]
    simp only [List.append_eq, List.cons_append, Char.reduceEq, reduceIte, hs]
    rw [if_pos hcond, Char.ofNat_toNat]
  · have hv := charValid c
    have he : escChar c
        = '\\' :: 'u' :: toHex4 (0xd800 + (c.toNat - 0x10000) / 0x400)
          ++ ('\\' :: 'u' :: toHex4 (0xdc00 + (c.toNat - 0x10000) % 0x400)) := by
      simp [escChar, h1, h2, h3, h4, h5, h6, h7, h8, h9]
    rw [he]
    have hhi : hexVal (hexDigitChar
          ((0xd800 + (c.toNat - 0x10000) / 0x400) / 4096 % 16)) * 4096
        + hexVal (hexDigitChar
          ((0xd800 + (c.toNat - 0x10000) / 0x400) / 256 % 16)) * 256
        + hexVal (hexDigitChar
          ((0xd800 + (c.toNat - 0x10000) / 0x400) / 16 % 16)) * 16
        + hexVal (hexDigitChar ((0xd800 + (c.toNat - 0x10000) / 0x400) % 16))
        = 0xd800 + (c.toNat - 0x10000) / 0x400 := recompose4 _ (by omega)
    have hlo : hexVal (hexDigitChar
          ((0xdc00 + (c.toNat - 0x10000) % 0x400) / 4096 % 16)) * 4096
        + hexVal (hexDigitChar
          ((0xdc00 + (c.toNat - 0x10000) % 0x400) / 256 % 16)) * 256
        + hexVal (hexDigitChar
          ((0xdc00 + (c.toNat - 0x10000) % 0x400) / 16 % 16)) * 16
        + hexVal (hexDigitChar ((0xdc00 + (c.toNat - 0x10000) % 0x400) % 16))
        = 0xdc00 + (c.toNat - 0x10000) % 0x400 := by
      have : (c.toNat - 0x10000) % 0x400 < 0x400 := Nat.mod_lt _ (by norm_num)
      exact recompose4 _ (by omega)
    have hncond : ¬(0xd800 + (c.toNat - 0x10000) / 0x400 < 0xd800
        ∨ 0xdc00 ≤ 0xd800 + (c.toNat - 0x10000) / 0x400) := by
      have : (c.toNat - 0x10000) / 0x400 < 0x400 := by omega
      omega
    simp only [toHex4, List.append_eq, List.cons_append, List.nil_append,
      unescFieldF]
    simp only [List.append_eq, List.cons_append, Char.reduceEq, reduceIte,
      hhi, hlo]
    rw [if_neg hncond]
    have harith : 0x10000
        + (0xd800 + (c.toNat - 0x10000) / 0x400 - 0xd800) * 0x400
        + (0xdc00 + (c.toNat - 0x10000) % 0x400 - 0xdc00) = c.toNat := by
      have := Nat.div_add_mod (c.toNat - 0x10000) 0x400
      omega
    rw [harith, Char.ofNat_toNat]

theorem escStr_cons (c : Char) (s : List Char) :
    escStr (c :: s) = escChar c ++ escStr s := by
  simp [escStr]

theorem one_le_length_escChar (c : Char) : 1 ≤ (escChar c).length := by
  unfold escChar
  split_ifs <;> simp [toHex4]

theorem length_le_length_escStr (s : List Char) :
    s.length ≤ (escStr s).length := by
  induction s with
  | nil => simp [escStr]
  | cons c s ih =>
      rw [escStr_cons]
      simp only [List.length_cons, List.length_append]
      have := one_le_length_escChar c
      omega

theorem unescFieldF_escStr (s : List Char) :
    ∀ (f : Nat) (w : List Char), s.length < f →
      unescFieldF f (escStr s ++ '"' :: w) = some (s, w) := by
  induction s with
  | nil =>
      intro f w hf
      match f, hf with
      | f + 1, _ => simp [escStr, unescFieldF]
  | cons c s ih =>
      intro f w hf
      match f, hf with
      | f + 1, hf =>
          rw [escStr_cons, List.append_assoc, unescFieldF_escChar,
            ih f w (by simpa using Nat.lt_of_succ_lt_succ hf)]
          rfl

theorem unescField_escStr (s w : List Char) :
    unescField (escStr s ++ '"' :: w) = some (s, w) := by
  have h : s.length < (escStr s ++ '"' :: w).length := by
    simp only [List.length_append, List.length_cons]
    have := length_le_length_escStr s
    omega
  exact unescFieldF_escStr s _ _ h

theorem dropLit_append (l w : List Char) : dropLit l (l ++ w) = some w := by
  induction l with
  | nil => rfl
  | cons c l ih => simp [dropLit, ih]

theorem parseHashInput_roundtrip (r : JiraRecord) (model : List Char) :
    parseHashInput (featureHashInput r model)
      = some (r.description, r.key, model, r.summary, r.updated) := by
  have hself : dropLit (chars "\x7d") (chars "\x7d") = some [] := by
    simpa using dropLit_append (chars "\x7d") []
  simp [parseHashInput, featureHashInput, dropLit_append, unescField_escStr,
    hself]

theorem pyRoundHalfEven_intCast (n : ℤ) : pyRoundHalfEven (n : ℚ) = n := by
  unfold pyRoundHalfEven
  rw [Int.floor_intCast]
  norm_num

theorem pyRound1_intCast (n : ℤ) : pyRound1 ((n : ℚ)) = (n : ℚ) := by
  unfold pyRound1
  rw [show (10 : ℚ) * (n : ℚ) = ((10 * n : ℤ) : ℚ) by push_cast; ring,
    pyRoundHalfEven_intCast]
  push_cast
  ring

theorem template_score_eq (r o : ℕ) :
    template_score r o = ((2 * r + o : ℕ) : ℚ) := by
  unfold template_score
  rw [show ((r : ℚ) / 4 * 8 + (o : ℚ) / 2 * 2) = (((2 * r + o : ℕ) : ℤ) : ℚ)
      by push_cast; ring,
    pyRound1_intCast]
  push_cast
  ring

/-- Whether a header occurs case-insensitively anywhere in a text. -/
def occursCI (hdr : List Char) : List Char → Bool
  | [] => false
  | c :: t => (dropAfterCI hdr (c :: t)).isSome || occursCI hdr t

theorem searchSec_eq_none_of_not_occursCI (la : List Char → Bool)
    (hdr : List Char) :
    ∀ desc : List Char, occursCI hdr desc = false →
      searchSec la hdr desc = none := by
  intro desc
  induction desc with
  | nil => intro _; rfl
  | cons c t ih =>
      intro h
      simp only [occursCI, Bool.or_eq_false_iff] at h
      rcases hd : dropAfterCI hdr (c :: t) with _ | rest
      · simp only [searchSec, hd]
        exact ih h.2
      · rw [hd] at h
        simp at h

theorem searchLazy_eq_none_of_not_occursCI (la : List Char → Bool)
    (hdr : List Char) :
    ∀ desc : List Char, occursCI hdr desc = false →
      searchLazy la hdr desc = none := by
  intro desc
  induction desc with
  | nil => intro _; rfl
  | cons c t ih =>
      intro h
      simp only [occursCI, Bool.or_eq_false_iff] at h
      rcases hd : dropAfterCI hdr (c :: t) with _ | rest
      · simp only [searchLazy, hd]
        exact ih h.2
      · rw [hd] at h
        simp at h

theorem pyStrip_nil : pyStrip [] = [] := rfl

/-- A stripped content that avoids every `is_valid` placeholder under
case-insensitive containment is not one of the `validate_section`
placeholder literals. -/
theorem not_global_placeholder_of_no_sub (content : List Char)
    (hps : ∀ p ∈ roxPlaceholders,
      containsSub p (lowerChars (pyStrip content)) = false) :
    pyStrip content ∉ jiraGlobalPlaceholders := by
  intro hmem
  simp only [jiraGlobalPlaceholders, List.mem_cons, List.not_mem_nil,
    or_false] at hmem
  rcases hmem with he | he | he
  · have h0 := hps (chars "<your text here>") (by decide)
    rw [he] at h0
    exact absurd h0 (by decide)
  · have h0 := hps (chars "<enter general feature acceptance here>")
      (by decide)
    rw [he] at h0
    exact absurd h0 (by decide)
  · have h0 := hps (chars "<enter success criteria and/or kpis here>")
      (by decide)
    rw [he] at h0
    exact absurd h0 (by decide)

theorem validate_section_of_long (required : Bool)
    (placeholder content : List Char)
    (h10 : 10 ≤ (pyStrip content).length)
    (hnp : pyStrip content ≠ placeholder)
    (hng : pyStrip content ∉ jiraGlobalPlaceholders) :
    validate_section required placeholder content = true := by
  have hcne : content.isEmpty = false := by
    rcases content with _ | ⟨c, t⟩
    · simp [pyStrip_nil] at h10
    · rfl
  have hcont : jiraGlobalPlaceholders.contains (pyStrip content) = false := by
    rcases hco : jiraGlobalPlaceholders.contains (pyStrip content) with _ | _
    · rfl
    · exact absurd (List.mem_of_elem_eq_true hco) hng
  simp only [validate_section, hcne, Bool.false_eq_true, if_false, hcont,
    Bool.or_false, if_neg (by omega : ¬(pyStrip content).length < 10)]
  simp [hnp]

theorem rox_is_valid_of_long (content : List Char)
    (h10 : 10 < (pyStrip content).length)
    (hps : ∀ p ∈ roxPlaceholders,
      containsSub p (lowerChars (pyStrip content)) = false) :
    ∀ required : Bool, rox_is_valid required content = true := by
  intro required
  rcases required with _ | _
  · rfl
  · have hlen : (lowerChars (pyStrip content)).length
        = (pyStrip content).length := List.length_map _ _
    have hemp : (lowerChars (pyStrip content)).isEmpty = false := by
      rcases hl : lowerChars (pyStrip content) with _ | ⟨c, t⟩
      · rw [hl] at hlen
        simp at hlen
        omega
      · rfl
    have hany : (roxPlaceholders.any
        (fun p => containsSub p (lowerChars (pyStrip content)))) = false := by
      simp only [List.any_eq_false]
      intro p hp
      simp [hps p hp]
    simp only [rox_is_valid, Bool.not_true, Bool.false_eq_true, if_false,
      hemp, hany, Bool.or_self, decide_eq_true_eq]
    omega

/-! ## Claims -/

/-- Claim C1, counterexample: the claim says a trimmed, non-placeholder
content of exactly 9 characters is invalid for every spec and exactly 10
characters is valid; `TemplateSection.is_valid` instead accepts the
9-character content for an optional spec and rejects the 10-character
content for a required spec. -/
theorem claim_C1_counterexample :
    rox_is_valid false (chars "abcdefghi") = true
    ∧ rox_is_valid true (chars "abcdefghij") = false := by
  decide

/-- Claim C1 (amended): for `validate_section`, trimmed non-placeholder
content of exactly 9 characters yields `valid = false` for every spec
and exactly 10 characters yields `valid = true`.  For
`TemplateSection.is_valid` the claim fails: optional specs are always
valid regardless of content, and required specs use a strict threshold —
exactly 10 non-placeholder characters yield `valid = false` and 11 yield
`valid = true`. -/
theorem claim_C1 :
    (∀ (required : Bool) (placeholder content : List Char),
        pyStrip content ≠ placeholder →
        pyStrip content ∉ jiraGlobalPlaceholders →
        (pyStrip content).length = 9 →
        validate_section required placeholder content = false)
    ∧ (∀ (required : Bool) (placeholder content : List Char),
        pyStrip content ≠ placeholder →
        pyStrip content ∉ jiraGlobalPlaceholders →
        (pyStrip content).length = 10 →
        validate_section required placeholder content = true)
    ∧ (∀ content : List Char, rox_is_valid false content = true)
    ∧ (∀ content : List Char,
        (∀ p ∈ roxPlaceholders,
          containsSub p (lowerChars (pyStrip content)) = false) →
        (pyStrip content).length = 10 →
        rox_is_valid true content = false)
    ∧ (∀ content : List Char,
        (∀ p ∈ roxPlaceholders,
          containsSub p (lowerChars (pyStrip content)) = false) →
        (pyStrip content).length = 11 →
        rox_is_valid true content = true) := by
  refine ⟨?_, ?_, ?_, ?_, ?_⟩
  · intro required placeholder content hnp hng hlen
    have hcne : content.isEmpty = false := by
      rcases content with _ | _
      · simp [pyStrip_nil] at hlen
      · rfl
    have hcont : jiraGlobalPlaceholders.contains (pyStrip content)
        = false := by
      rcases hco : jiraGlobalPlaceholders.contains (pyStrip content) with _ | _
      · rfl
      · exact absurd (List.mem_of_elem_eq_true hco) hng
    simp only [validate_section, hcne, Bool.false_eq_true, if_false, hcont,
      Bool.or_false, if_pos (by omega : (pyStrip content).length < 10)]
    simp [hnp]
  · intro required placeholder content hnp hng hlen
    exact validate_section_of_long required placeholder content
      (by omega) hnp hng
  · intro content
    rfl
  · intro content hps hlen
    have hlenl : (lowerChars (pyStrip content)).length = 10 := by
      simp [lowerChars, hlen]
    have hemp : (lowerChars (pyStrip content)).isEmpty = false := by
      rcases hl : lowerChars (pyStrip content) with _ | _
      · rw [hl] at hlenl
        simp at hlenl
      · rfl
    have hany : (roxPlaceholders.any
        (fun p => containsSub p (lowerChars (pyStrip content)))) = false := by
      simp only [List.any_eq_false]
      intro p hp
      simp [hps p hp]
    simp only [rox_is_valid, Bool.not_true, Bool.false_eq_true, if_false,
      hemp, hany, Bool.or_self]
    rw [hlenl]
    rfl
  · intro content hps hlen
    exact rox_is_valid_of_long content (by omega) hps true

/-- Witness for claim C1 at concrete inputs. -/
theorem claim_C1_witness :
    validate_section true (chars "<your text here>") (chars "123456789")
        = false
    ∧ validate_section false (chars "<your text here>") (chars "1234567890")
        = true
    ∧ rox_is_valid false [] = true
    ∧ rox_is_valid true (chars "1234567890") = false
    ∧ rox_is_valid true (chars "12345678901") = true :=
  ⟨claim_C1.1 true (chars "<your text here>") (chars "123456789")
      (by decide) (by decide) (by decide),
   claim_C1.2.1 false (chars "<your text here>") (chars "1234567890")
      (by decide) (by decide) (by decide),
   claim_C1.2.2.1 [],
   claim_C1.2.2.2.1 (chars "1234567890") (by decide) (by decide),
   claim_C1.2.2.2.2 (chars "12345678901") (by decide) (by decide)⟩

/-- Claim C2, counterexample: content that case-insensitively equals a
placeholder (but differs in case) passes `validate_section` for a
required spec — the source compares placeholders case-sensitively. -/
theorem claim_C2_counterexample :
    lowerChars (pyStrip (chars "<YOUR TEXT HERE>"))
        = lowerChars (pyStrip (chars "<your text here>"))
    ∧ validate_section true (chars "<your text here>")
        (chars "<YOUR TEXT HERE>") = true := by
  decide

/-- Claim C2 (amended): `validate_section` treats content as placeholder
only under case-sensitive equality, and then returns `valid = !required`;
`TemplateSection.is_valid` returns `valid = !required` whenever the
lower-cased trimmed content contains any placeholder as a substring
(which covers case-insensitive equality); in the rox pipeline a section
with non-empty content implies `present = true`. -/
theorem claim_C2 :
    (∀ (required : Bool) (placeholder content : List Char),
        (pyStrip content = placeholder
          ∨ pyStrip content ∈ jiraGlobalPlaceholders) →
        validate_section required placeholder content = !required)
    ∧ (∀ (required : Bool) (content : List Char),
        (∃ p ∈ roxPlaceholders,
          containsSub p (lowerChars (pyStrip content)) = true) →
        rox_is_valid required content = !required)
    ∧ (∀ (desc : List Char) (spec : RoxSectionSpec),
        roxSectionContent desc spec ≠ [] → roxPresent desc = true) := by
  refine ⟨?_, ?_, ?_⟩
  · intro required placeholder content h
    rcases hce : content.isEmpty with _ | _
    · have hcond : (decide (pyStrip content = placeholder)
          || jiraGlobalPlaceholders.contains (pyStrip content)) = true := by
        rcases h with h | h
        · simp [h]
        · have hc2 : jiraGlobalPlaceholders.contains (pyStrip content)
              = true := List.elem_eq_true_of_mem h
          rw [hc2]
          simp
      simp only [validate_section, hce, Bool.false_eq_true, if_false, hcond,
        if_true]
    · simp [validate_section, hce]
  · intro required content h
    rcases required with _ | _
    · rfl
    · obtain ⟨p, hp, hc⟩ := h
      have hany : (roxPlaceholders.any
          (fun q => containsSub q (lowerChars (pyStrip content)))) = true := by
        exact List.any_eq_true.mpr ⟨p, hp, hc⟩
      simp [rox_is_valid, hany]
  · intro desc spec h
    rcases desc with _ | ⟨c, t⟩
    · exfalso
      apply h
      rcases spec with ⟨n, req, hd, lc⟩
      rcases lc with _ | _ <;> simp [roxSectionContent, searchSec, searchLazy]
    · rfl

/-- Witness for claim C2 at concrete inputs. -/
theorem claim_C2_witness :
    validate_section true (chars "<enter general Feature acceptance here>")
        (chars "<enter general Feature acceptance here>") = false
    ∧ rox_is_valid true (chars "  <your text here>  ") = false
    ∧ roxPresent (chars "Goal Summary:\nabc\n\n") = true :=
  ⟨claim_C2.1 true (chars "<enter general Feature acceptance here>")
      (chars "<enter general Feature acceptance here>") (Or.inl (by decide)),
   claim_C2.2.1 true (chars "  <your text here>  ")
      ⟨chars "<your text here>", by decide, by decide⟩,
   claim_C2.2.2 (chars "Goal Summary:\nabc\n\n")
      ⟨chars "Goal Summary", true, chars "Goal Summary:", false⟩
      (by decide)⟩

/-- Claim C3, counterexample: for the empty description and the optional
"Use Cases" section, `validate_feature_template` records `valid = true`
with `present = false`, violating the claimed invariant. -/
theorem claim_C3_counterexample :
    (⟨chars "Use Cases", false, chars "Use Cases", true⟩ : RoxSectionSpec)
        ∈ roxOptionalSections
    ∧ roxSectionValid []
        ⟨chars "Use Cases", false, chars "Use Cases", true⟩ = true
    ∧ roxPresent [] = false := by
  decide

/-- Claim C3 (amended): in the rox pipeline, `valid` implies `present`
for every required section; optional sections are always `valid`, so the
invariant fails exactly for an absent optional section. -/
theorem claim_C3 :
    (∀ (desc : List Char) (spec : RoxSectionSpec),
        spec ∈ roxRequiredSections →
        roxSectionValid desc spec = true → roxPresent desc = true)
    ∧ (∀ (desc : List Char) (spec : RoxSectionSpec),
        spec ∈ roxOptionalSections → roxSectionValid desc spec = true) := by
  constructor
  · intro desc spec hmem hvalid
    rcases desc with _ | ⟨c, t⟩
    · exfalso
      fin_cases hmem <;> exact absurd hvalid (by decide)
    · rfl
  · intro desc spec hmem
    fin_cases hmem <;> rfl

/-- Witness for claim C3 at concrete inputs. -/
theorem claim_C3_witness :
    roxPresent (chars "Goal Summary:\nA content long enough.\n\n") = true
    ∧ roxSectionValid (chars "x")
        ⟨chars "Out of Scope", false, chars "Out of Scope", true⟩ = true :=
  ⟨claim_C3.1 (chars "Goal Summary:\nA content long enough.\n\n")
      ⟨chars "Goal Summary", true, chars "Goal Summary:", false⟩
      (by decide) (by decide),
   claim_C3.2 (chars "x")
      ⟨chars "Out of Scope", false, chars "Out of Scope", true⟩ (by decide)⟩

/-- Claim C4: `template_score` is monotonically non-decreasing in the
number of valid required sections and in the number of valid optional
sections (holding the other fixed), required sections weighing 8 points
and optional sections 2 points scaled by fraction valid; a record with
all six sections valid (all four required and both optional) scores
exactly 10. -/
theorem claim_C4 :
    (∀ r r' o : ℕ, r ≤ r' → template_score r o ≤ template_score r' o)
    ∧ (∀ r o o' : ℕ, o ≤ o' → template_score r o ≤ template_score r o')
    ∧ (∀ desc : List Char, roxRequiredValidCount desc = 4 →
        roxOptionalValidCount desc = 2 → roxTemplateScore desc = 10) := by
  refine ⟨?_, ?_, ?_⟩
  · intro r r' o h
    rw [template_score_eq, template_score_eq]
    exact_mod_cast (by omega : 2 * r + o ≤ 2 * r' + o)
  · intro r o o' h
    rw [template_score_eq, template_score_eq]
    exact_mod_cast (by omega : 2 * r + o ≤ 2 * r + o')
  · intro desc h1 h2
    unfold roxTemplateScore
    rw [h1, h2, template_score_eq]
    norm_num

/-- A description with all four required sections filled in; used as the
all-sections-valid witness for claim C4. -/
def d4 : List Char := chars
  "Goal Summary:\nThis is a full goal summary.\n\nGoals and expected user outcomes:\nUsers get many outcomes.\n\nAcceptance Criteria:\nAll tests pass always.\n\nSuccess Criteria or KPIs measured:\nKPI numbers improve.\n\n"

/-- Witness for claim C4 at concrete inputs. -/
theorem claim_C4_witness :
    template_score 1 0 ≤ template_score 2 0
    ∧ template_score 1 0 ≤ template_score 1 1
    ∧ roxTemplateScore d4 = 10 :=
  ⟨claim_C4.1 1 2 0 (by decide), claim_C4.2.1 1 0 1 (by decide),
   claim_C4.2.2 d4 (by decide) (by decide)⟩

/-- The end-to-end description of claim C5. -/
def d5 : List Char := chars
  "Goal Summary:\nShip X.\n\nGoals and expected user outcomes:\n<your text here>\n\nAcceptance Criteria:\nDone when Y.\n\nSuccess Criteria or KPIs measured:\nKPI Z tracked weekly."

/-- Claim C5, counterexample: on the claimed description both pipelines
disagree with the claimed `requiredMissingCount = 1` and
`templateScore = 6.0`: the "Goal Summary" content `"Ship X."` is only 7
characters (below both length thresholds), and in the rox pipeline the
"Success Criteria" section additionally fails to extract because the text
does not end with a blank line. -/
theorem claim_C5_counterexample :
    roxMissingRequiredCount d5 = 3
    ∧ roxMissingRequiredCount d5 ≠ 1
    ∧ jiraRequiredMissingCount d5 = 2
    ∧ jiraRequiredMissingCount d5 ≠ 1
    ∧ roxTemplateScore d5 ≠ 6 := by
  refine ⟨by decide, by decide, by decide, by decide, ?_⟩
  have h1 : roxRequiredValidCount d5 = 1 := by decide
  have h2 : roxOptionalValidCount d5 = 2 := by decide
  unfold roxTemplateScore
  rw [h1, h2, template_score_eq]
  norm_num

/-- Claim C5 (amended): on the end-to-end description, the jira pipeline
reports 2 missing required sections ("Goal Summary" is 7 characters,
"Goals" is placeholder) and `overallValid = false`; the rox pipeline
reports 1 of 4 required sections valid, 3 missing (also "Success
Criteria", whose pattern needs a blank line after the section), both
optional sections counted valid because optional sections always are,
and `templateScore = 4.0` (1/4 × 8 + 2/2 × 2). -/
theorem claim_C5 :
    jiraRequiredMissingCount d5 = 2
    ∧ jiraOverallValid d5 = false
    ∧ roxRequiredValidCount d5 = 1
    ∧ roxMissingRequiredCount d5 = 3
    ∧ roxOptionalValidCount d5 = 2
    ∧ roxTemplateScore d5 = 4 := by
  refine ⟨by decide, by decide, by decide, by decide, by decide, ?_⟩
  have h1 : roxRequiredValidCount d5 = 1 := by decide
  have h2 : roxOptionalValidCount d5 = 2 := by decide
  unfold roxTemplateScore
  rw [h1, h2, template_score_eq]
  norm_num

/-- The "goal_summary" entry of `TEMPLATE_SECTIONS`. -/
def gsJira : JiraTemplateSection :=
  ⟨chars "goal_summary", chars "Goal Summary:", true, chars "<your text here>"⟩

/-- The "Goal Summary" entry of `section_patterns`. -/
def gsRox : RoxSectionSpec :=
  ⟨chars "Goal Summary", true, chars "Goal Summary:", false⟩

/-- A description where the next header follows on the very next line
with no blank line between; used to refute claim C6's boundary rule. -/
def d6 : List Char := chars "Goal Summary:\nA12345678\nAcceptance Criteria: ok"

/-- Claim C6, counterexample: by the claimed boundary rule the "Goal
Summary" content would stop before the line `"Acceptance Criteria: ok"`
(a line starting with a capitalized word and a colon) and equal
`"A12345678"`; instead the jira extractor runs to the end of the text and
the rox extractor returns the empty string, because both patterns demand
a blank line before the next header. -/
theorem claim_C6_counterexample :
    gsJira ∈ jiraTemplateSections
    ∧ jiraExtractContent d6 gsJira
        = chars "A12345678\nAcceptance Criteria: ok"
    ∧ jiraExtractContent d6 gsJira ≠ chars "A12345678"
    ∧ roxSectionContent d6 gsRox = [] := by
  decide

/-- Claim C6 (amended): when the header does not occur case-insensitively
the extracted content is the empty string (both extractors); when it
occurs, the boundary is not "next capitalized-word-colon line" but a
blank line followed by a letter-initiated colon-containing stretch — on
`d6`, which has no blank line, the jira extractor captures up to the end
of the text and the rox extractor yields the empty string. -/
theorem claim_C6 :
    (∀ (desc : List Char) (sec : JiraTemplateSection),
        occursCI sec.header desc = false → jiraExtractContent desc sec = [])
    ∧ (∀ (desc : List Char) (spec : RoxSectionSpec),
        occursCI spec.hdrLit desc = false → roxSectionContent desc spec = [])
    ∧ jiraExtractContent d6 gsJira
        = chars "A12345678\nAcceptance Criteria: ok"
    ∧ roxSectionContent d6 gsRox = [] := by
  refine ⟨?_, ?_, by decide, by decide⟩
  · intro desc sec h
    unfold jiraExtractContent
    rw [searchSec_eq_none_of_not_occursCI laJira sec.header desc h]
  · intro desc spec h
    unfold roxSectionContent
    rcases hl : spec.lazyColon with _ | _ <;>
      simp [searchSec_eq_none_of_not_occursCI laRox spec.hdrLit desc h,
        searchLazy_eq_none_of_not_occursCI laRox spec.hdrLit desc h]

/-- Witness for claim C6 at concrete inputs. -/
theorem claim_C6_witness :
    occursCI (chars "Goal Summary:") (chars "no header in this text") = false
    ∧ jiraExtractContent (chars "no header in this text") gsJira = []
    ∧ roxSectionContent (chars "no header in this text") gsRox = [] :=
  ⟨by decide,
   claim_C6.1 (chars "no header in this text") gsJira (by decide),
   claim_C6.2.1 (chars "no header in this text") gsRox (by decide)⟩

/-- Claim C7: `calculate_compliance_score` equals the spec's weighted
formula — template completeness at 40%, the two assignment signals at 20%
split evenly, the mean quality sub-score rescaled from `[1,5]` to `[0,1]`
at 30%, the label signal at 10%, scaled to 10 points, rounded to nearest
and clamped — and is always an integer in `[1, 10]`, with all-zero
signals giving 1 and all-maximum signals giving 10. -/
theorem claim_C7 :
    (∀ (t : ℚ) (pm asg : Bool) (g : GenAIValidationResult) (label : Bool),
        calculate_compliance_score t pm asg g label
          = specComplianceScore t pm asg g label)
    ∧ (∀ (t : ℚ) (pm asg : Bool) (g : GenAIValidationResult) (label : Bool),
        1 ≤ calculate_compliance_score t pm asg g label
          ∧ calculate_compliance_score t pm asg g label ≤ 10)
    ∧ calculate_compliance_score 0 false false ⟨1, 1, 1, 1, 1⟩ false = 1
    ∧ calculate_compliance_score 10 true true ⟨5, 5, 5, 5, 5⟩ true = 10 := by
  refine ⟨?_, ?_, ?_, ?_⟩
  · intro t pm asg g label
    unfold calculate_compliance_score specComplianceScore
    ring_nf
  · intro t pm asg g label
    unfold calculate_compliance_score
    refine ⟨le_max_left 1 _, max_le (by norm_num) (min_le_left _ _)⟩
  · have h0 : pyRoundHalfEven ((0 : ℤ) : ℚ) = 0 := pyRoundHalfEven_intCast 0
    norm_num at h0
    unfold calculate_compliance_score
    norm_num [avgLlmScore, b2q, h0]
  · have h10 : pyRoundHalfEven ((10 : ℤ) : ℚ) = 10 := pyRoundHalfEven_intCast 10
    norm_num at h10
    unfold calculate_compliance_score
    norm_num [avgLlmScore, b2q, h10]

/-- Claim C8: whenever the external scoring call fails — exception
(network error or timeout), non-success status, or a body that does not
parse as at least five comma-separated integers — and no cached result
exists, `validate_with_genai` returns the neutral all-3 score and stores
it in the cache (the second component records the `_save_cached_result`
call); being a total function of the outcome, it never propagates the
failure, so the caller's loop over records continues. -/
theorem claim_C8 :
    ∀ o : OllamaOutcome, ollamaFailed o →
      validate_with_genai none o = (neutralResult, true) := by
  intro o h
  rcases h with h | ⟨s, t, heq, hbad⟩
  · subst h
    rfl
  · subst heq
    by_cases hs : s = 200
    · subst hs
      rcases hbad with hbad | hbad
      · exact absurd rfl hbad
      · simp [validate_with_genai, hbad]
    · simp [validate_with_genai, hs]

/-- Witness for claim C8: a short-response body (three integers) and a
server-error status both yield the cached neutral score. -/
theorem claim_C8_witness :
    ollamaFailed (OllamaOutcome.ok 200 (chars "1,2,3"))
    ∧ validate_with_genai none (OllamaOutcome.ok 200 (chars "1,2,3"))
        = (neutralResult, true)
    ∧ ollamaFailed (OllamaOutcome.ok 500 [])
    ∧ validate_with_genai none (OllamaOutcome.ok 500 [])
        = (neutralResult, true) := by
  have h1 : ollamaFailed (OllamaOutcome.ok 200 (chars "1,2,3")) :=
    Or.inr ⟨200, chars "1,2,3", rfl, Or.inr (by decide)⟩
  have h2 : ollamaFailed (OllamaOutcome.ok 500 []) :=
    Or.inr ⟨500, [], rfl, Or.inl (by decide)⟩
  exact ⟨h1, claim_C8 _ h1, h2, claim_C8 _ h2⟩

/-- Claim C9: the SHA-256 input of `_get_feature_hash` is a function of
exactly the record's key, summary, description, last-updated marker and
the model version: two records agreeing on those five give identical hash
inputs (hence identical fingerprints) regardless of all other fields, and
any difference in one of the five changes the hash input (hence, under
the collision resistance the spec itself assumes of SHA-256, the
fingerprint, forcing a fresh external call on cache lookup). -/
theorem claim_C9 :
    ∀ (r1 r2 : JiraRecord) (m1 m2 : List Char),
      featureHashInput r1 m1 = featureHashInput r2 m2 ↔
        (r1.key = r2.key ∧ r1.summary = r2.summary
          ∧ r1.description = r2.description ∧ r1.updated = r2.updated
          ∧ m1 = m2) := by
  intro r1 r2 m1 m2
  constructor
  · intro h
    have hp := congrArg parseHashInput h
    rw [parseHashInput_roundtrip, parseHashInput_roundtrip] at hp
    simp only [Option.some.injEq, Prod.mk.injEq] at hp
    exact ⟨hp.2.1, hp.2.2.2.1, hp.1, hp.2.2.2.2, hp.2.2.1⟩
  · rintro ⟨hk, hs, hd, hu, hm⟩
    unfold featureHashInput
    rw [hk, hs, hd, hu, hm]

/-- Witness for claim C9: records differing only in unrelated metadata
share the hash input; records differing in the description do not. -/
theorem claim_C9_witness :
    featureHashInput
        ⟨chars "ROX-1", chars "Sum", chars "Desc", chars "2024", chars "meta-a"⟩
        (chars "LLama3.1:8b")
      = featureHashInput
        ⟨chars "ROX-1", chars "Sum", chars "Desc", chars "2024", chars "meta-b"⟩
        (chars "LLama3.1:8b")
    ∧ featureHashInput
        ⟨chars "ROX-1", chars "Sum", chars "Desc one", chars "2024", chars "m"⟩
        (chars "LLama3.1:8b")
      ≠ featureHashInput
        ⟨chars "ROX-1", chars "Sum", chars "Desc two", chars "2024", chars "m"⟩
        (chars "LLama3.1:8b") := by
  constructor
  · exact (claim_C9 _ _ _ _).mpr ⟨rfl, rfl, rfl, rfl, rfl⟩
  · intro h
    have h2 := (claim_C9 _ _ _ _).mp h
    exact absurd h2.2.2.1 (by decide)

/-- A description whose section has no blank-line terminator; the two
extractors disagree on it. -/
def d10 : List Char := chars "Goal Summary:\nHello cruel world"

/-- Claim C10, counterexample: the two validators disagree on a required
section with 10-character content (`validate_section` accepts at length
≥ 10, `is_valid` demands > 10), and the two extractors disagree on a
section not followed by a blank line (jira captures to end of text, rox
extracts nothing). -/
theorem claim_C10_counterexample :
    validate_section true (chars "<your text here>") (chars "1234567890")
        = true
    ∧ rox_is_valid true (chars "1234567890") = false
    ∧ jiraExtractContent d10 gsJira = chars "Hello cruel world"
    ∧ roxSectionContent d10 gsRox = []
    ∧ jiraExtractContent d10 gsJira ≠ roxSectionContent d10 gsRox := by
  decide

/-- Claim C10 (amended): the two implementations are not extensionally
equivalent, but they agree — both judging the section valid — for every
template section whenever the trimmed content is strictly longer than 10
characters and contains no placeholder text case-insensitively. -/
theorem claim_C10 :
    ∀ content : List Char,
      10 < (pyStrip content).length →
      (∀ p ∈ roxPlaceholders,
        containsSub p (lowerChars (pyStrip content)) = false) →
      (∀ sec ∈ jiraTemplateSections,
          validate_section sec.required sec.placeholder content = true)
      ∧ (∀ required : Bool, rox_is_valid required content = true) := by
  intro content h10 hps
  constructor
  · intro sec hmem
    have hng := not_global_placeholder_of_no_sub content hps
    fin_cases hmem <;>
      exact validate_section_of_long _ _ content (by omega)
        (fun he => hng (by rw [he]; decide)) hng
  · exact rox_is_valid_of_long content h10 hps

/-- Witness for claim C10 at a concrete long non-placeholder content. -/
theorem claim_C10_witness :
    validate_section true (chars "<your text here>")
        (chars "plenty of content") = true
    ∧ rox_is_valid true (chars "plenty of content") = true :=
  ⟨(claim_C10 (chars "plenty of content") (by decide) (by decide)).1
      gsJira (by decide),
   (claim_C10 (chars "plenty of content") (by decide) (by decide)).2 true⟩

end FeatureValidation
